import Mathlib

/-!
Verification of the founders golf-scoring pipeline: a shallow embedding of
the points curve, tie-group position assignment, upload persistence
choreography, score interpretation, and season aggregation, with theorems
settling the specification's claims about them.

Scores and points are modelled as rationals.  JavaScript numbers that may be
`NaN` are modelled as `Option ℚ` with `none` standing for `NaN`; raw row
fields that may also be absent (`undefined`/`null`) are modelled by `JsField`.
-/

/-- A JavaScript number: `none` is `NaN`, `some q` a real value. -/
abbrev JsNum := Option ℚ

/-- A raw row field: absent (`undefined`/`null`), `NaN`, or a number. -/
inductive JsField where
  | missing
  | nan
  | num (q : ℚ)
deriving DecidableEq

/-- Embedding of `x ?? d` (nullish coalescing): only absence falls back. -/
def JsField.nullish (x : JsField) (d : ℚ) : JsNum :=
  match x with
  | .missing => some d
  | .nan => none
  | .num q => some q

/-- Embedding of strict equality `===` on numbers: `NaN === NaN` is false. -/
def jsStrictEq (x y : JsNum) : Bool :=
  match x, y with
  | some a, some b => a == b
  | _, _ => false

/-- Embedding of `x > 0` on a number: false when `x` is `NaN`. -/
def jsGtZero (x : JsNum) : Bool :=
  match x with
  | some a => 0 < a
  | none => false

/-- Embedding of `x || d` (truthiness fallback) producing a real: both `NaN`
and `0` are falsy. -/
def jsTruthyOr (x : JsNum) (d : ℚ) : ℚ :=
  match x with
  | some a => if a = 0 then d else a
  | none => d

/-- Embedding of `+` on JavaScript numbers: `NaN` propagates. -/
def jsAdd (x y : JsNum) : JsNum :=
  match x, y with
  | some a, some b => some (a + b)
  | _, _ => none

/-- Tournament tier (`tournaments.type`). -/
inductive Tier where
  | Major
  | TourEvent
  | League
  | SUPR
deriving DecidableEq

/-- Tournament format (`tournaments.format`). -/
inductive Format where
  | StrokePlay
  | Stableford
  | Points
deriving DecidableEq

/-- `pointsSystem['Major']` from `pointsService.calculatePoints`. -/
def pointsSystemMajor : List (Nat × ℚ) :=
  [(1, 750), (2, 400), (3, 350), (4, 325), (5, 300), (6, 275), (7, 250),
   (8, 225), (9, 200), (10, 175), (11, 150), (12, 130), (13, 120), (14, 110),
   (15, 90), (16, 80), (17, 70), (18, 65), (19, 60), (20, 55), (21, 50),
   (22, 48), (23, 46), (24, 44), (25, 42), (26, 40), (27, 38), (28, 36),
   (29, 34), (30, 32.5), (31, 31), (32, 29.5), (33, 28), (34, 26.5), (35, 25),
   (36, 24), (37, 23), (38, 22), (39, 21), (40, 20.25), (41, 19.5),
   (42, 18.75), (43, 18), (44, 17.25), (45, 16.5), (46, 15.75), (47, 15),
   (48, 14.25), (49, 13.5), (50, 13), (51, 12.5), (52, 12), (53, 11.5),
   (54, 11), (55, 10.5), (56, 10), (57, 9.5), (58, 9), (59, 8.5), (60, 8),
   (61, 7.75), (62, 7.5), (63, 7.25), (64, 7)]

/-- `pointsSystem['Tour Event']` from `pointsService.calculatePoints`. -/
def pointsSystemTourEvent : List (Nat × ℚ) :=
  [(1, 500), (2, 300), (3, 190), (4, 135), (5, 110), (6, 100), (7, 90),
   (8, 85), (9, 80), (10, 75), (11, 70), (12, 65), (13, 60), (14, 55),
   (15, 53), (16, 51), (17, 49), (18, 47), (19, 45), (20, 43), (21, 41),
   (22, 39), (23, 37), (24, 35.5), (25, 34), (26, 32.5), (27, 31), (28, 29.5),
   (29, 28), (30, 26.5), (31, 25), (32, 23.5), (33, 22), (34, 21), (35, 20),
   (36, 19), (37, 18), (38, 17), (39, 16), (40, 15), (41, 14), (42, 13),
   (43, 12), (44, 11), (45, 10.5), (46, 10), (47, 9.5), (48, 9), (49, 8.5),
   (50, 8), (51, 7.5), (52, 7), (53, 6.5), (54, 6), (55, 5.8), (56, 5.6),
   (57, 5.4), (58, 5.2), (59, 5), (60, 4.8), (61, 4.6), (62, 4.4), (63, 4.2),
   (64, 4), (65, 3.8)]

/-- `pointsSystem['League']` from `pointsService.calculatePoints`. -/
def pointsSystemLeague : List (Nat × ℚ) :=
  [(1, 93.75), (2, 50), (3, 43.75), (4, 40.625), (5, 37.5), (6, 34.375),
   (7, 28.125), (8, 25), (9, 21.875), (10, 18.75), (11, 16.25), (12, 15),
   (13, 13.75), (14, 11.25), (15, 10), (16, 8.75), (17, 8.125), (18, 7.5),
   (19, 6.875), (20, 6)]

/-- `pointsSystem['SUPR']` from `pointsService.calculatePoints`. -/
def pointsSystemSUPR : List (Nat × ℚ) :=
  [(1, 93.75), (2, 50), (3, 43.75), (4, 40.625), (5, 37.5), (6, 34.375),
   (7, 28.125), (8, 25), (9, 21.875), (10, 18.75), (11, 16.25), (12, 15),
   (13, 13.75), (14, 11.25), (15, 10), (16, 8.75), (17, 8.125), (18, 7.5),
   (19, 6.875), (20, 6)]

/-- The per-tier points table (`pointsSystem[tournamentType]`). -/
def pointsSystem : Tier → List (Nat × ℚ)
  | .Major => pointsSystemMajor
  | .TourEvent => pointsSystemTourEvent
  | .League => pointsSystemLeague
  | .SUPR => pointsSystemSUPR

/-- The fallback branch of `pointsService.calculatePoints`: `0` beyond the
table for League, otherwise `position <= 20 ? Math.max(30 - position, 5) : 0`. -/
def calculatePointsFallback (position : Nat) (tournamentType : Tier) : ℚ :=
  if tournamentType = .League then 0
  else if position ≤ 20 then max (30 - (position : ℚ)) 5 else 0

/-- `pointsService.calculatePoints(position, tournamentType)`.  The
`if (points[position])` truthiness test is kept: a looked-up value of `0`
would fall through to the fallback (no table value is in fact `0`). -/
def calculatePoints (position : Nat) (tournamentType : Tier) : ℚ :=
  match (pointsSystem tournamentType).lookup position with
  | some v => if v = 0 then calculatePointsFallback position tournamentType else v
  | none => calculatePointsFallback position tournamentType

/-- `countLeading p l` is the length of the longest prefix of `l` all of whose
elements satisfy `p` — the inner `while` loop counting tied players. -/
def countLeading (p : α → Bool) : List α → Nat
  | [] => 0
  | x :: rest => if p x then countLeading p rest + 1 else 0

/-- Fueled worker for the tie-group scan shared by the three position
assigners: starting at `currentPosition`, split off the maximal leading group
of entries tied with the group leader (per `pred leader`), emit the assigned
group, and continue after it.  `fuel ≥ l.length` always suffices since each
group is nonempty; the fuel only makes the recursion structural. -/
def tieScanF (pred : α → α → Bool) (emit : Nat → Nat → α → List α → List α) :
    Nat → Nat → List α → List α
  | 0, _, _ => []
  | _, _, [] => []
  | fuel + 1, currentPosition, leader :: rest =>
    let extra := countLeading (pred leader) rest
    let tiedPlayers := extra + 1
    emit currentPosition tiedPlayers leader (leader :: rest.take extra) ++
      tieScanF pred emit fuel (currentPosition + tiedPlayers) (rest.drop extra)

/-- Tie-group scan: the `while (i < sortedResults.length)` loop skeleton. -/
def tieScan (pred : α → α → Bool) (emit : Nat → Nat → α → List α → List α)
    (currentPosition : Nat) (l : List α) : List α :=
  tieScanF pred emit l.length currentPosition l

/-- `totalPoints` of a tie group: the
`for (pos = currentPosition; pos < currentPosition + tiedPlayers; pos++)`
accumulation of `pointsService.calculatePoints`. -/
def totalTiePoints (tournamentType : Tier) (currentPosition tiedPlayers : Nat) : ℚ :=
  ((List.range tiedPlayers).map
    (fun i => calculatePoints (currentPosition + i) tournamentType)).sum

/-- One row as seen by the position assigners: only the fields the source
helpers touch (`sortedResults[i][scoreField]`, `[positionField]`,
`[pointsField]`, `.tied_players`, `.directPoints`). -/
structure Entry where
  score : ℚ
  position : Nat
  points : ℚ
  tied_players : Nat
  directPoints : Bool
deriving DecidableEq

/-- `assignPositionsWithTies` from `useSupabaseData.uploadTournamentWithResults`:
ties are grouped by strict equality (`=== currentScore`); for a Points-format
tournament whose group leader carries direct points, positions and tie sizes
are assigned but points are left alone; otherwise the combined curve points of
the occupied positions are split evenly. -/
def assignPositionsWithTies (format : Format) (tournamentType : Tier)
    (currentPosition : Nat) (sortedResults : List Entry) : List Entry :=
  tieScan (fun leader x => jsStrictEq (some x.score) (some leader.score))
    (fun p k leader group =>
      if format = .Points ∧ leader.directPoints then
        group.map (fun g => { g with position := p, tied_players := k })
      else
        group.map (fun g =>
          { g with position := p, points := totalTiePoints tournamentType p k / (k : ℚ),
                   tied_players := k }))
    currentPosition sortedResults

/-- `assignPositionsWithTies` from `recalculationService.recalculateTournament`:
ties are grouped by the floating-point tolerance
`Math.abs(score - currentScore) < 0.001`, and the combined curve points are
always split evenly. -/
def recalcAssignPositionsWithTies (tournamentType : Tier)
    (currentPosition : Nat) (sortedResults : List Entry) : List Entry :=
  tieScan (fun leader x => decide (|x.score - leader.score| < (1/1000 : ℚ)))
    (fun p k _ group =>
      group.map (fun g =>
        { g with position := p, points := totalTiePoints tournamentType p k / (k : ℚ),
                 tied_players := k }))
    currentPosition sortedResults

/-- `assignPositionsOnly` from `recalculationService.recalculateTournament`
(Points format): grouped on the points field with the same `< 0.001`
tolerance (after `|| 0`, the identity on rationals), assigning positions and
tie sizes but never touching the points. -/
def assignPositionsOnly (currentPosition : Nat) (sortedResults : List Entry) :
    List Entry :=
  tieScan (fun leader x => decide (|x.points - leader.points| < (1/1000 : ℚ)))
    (fun p k _ group =>
      group.map (fun g => { g with position := p, tied_players := k }))
    currentPosition sortedResults

lemma countLeading_le (p : α → Bool) (l : List α) : countLeading p l ≤ l.length := by
  induction l with
  | nil => simp [countLeading]
  | cons x rest ih =>
    simp only [countLeading]
    split
    · simp
      omega
    · simp

lemma tieScanF_nil (pred : α → α → Bool) (emit : Nat → Nat → α → List α → List α)
    (fuel p : Nat) : tieScanF pred emit fuel p [] = [] := by
  cases fuel <;> rfl

lemma tieScanF_fuel_irrelevant (pred : α → α → Bool)
    (emit : Nat → Nat → α → List α → List α) :
    ∀ fuel₁ fuel₂ p (l : List α), l.length ≤ fuel₁ → l.length ≤ fuel₂ →
      tieScanF pred emit fuel₁ p l = tieScanF pred emit fuel₂ p l := by
  intro fuel₁
  induction fuel₁ with
  | zero =>
    intro fuel₂ p l h₁ _
    have : l = [] := List.length_eq_zero.mp (Nat.le_zero.mp h₁)
    subst this
    simp [tieScanF_nil]
  | succ f₁ ih =>
    intro fuel₂ p l h₁ h₂
    cases l with
    | nil => simp [tieScanF_nil]
    | cons leader rest =>
      cases fuel₂ with
      | zero => simp at h₂
      | succ f₂ =>
        simp only [tieScanF]
        congr 1
        have hdrop : (rest.drop (countLeading (pred leader) rest)).length ≤ rest.length := by
          simp [List.length_drop]
        exact ih f₂ _ _ (le_trans hdrop (by simpa using h₁)) (le_trans hdrop (by simpa using h₂))

/-- One step of the tie-group scan: split off the leading tie group. -/
lemma tieScan_cons (pred : α → α → Bool) (emit : Nat → Nat → α → List α → List α)
    (p : Nat) (leader : α) (rest : List α) :
    tieScan pred emit p (leader :: rest) =
      emit p (countLeading (pred leader) rest + 1) leader
          (leader :: rest.take (countLeading (pred leader) rest)) ++
        tieScan pred emit (p + (countLeading (pred leader) rest + 1))
          (rest.drop (countLeading (pred leader) rest)) := by
  show tieScanF pred emit (rest.length + 1) p (leader :: rest) = _
  simp only [tieScanF]
  congr 1
  exact tieScanF_fuel_irrelevant pred emit rest.length _ _ _
    (by simp [List.length_drop]) (le_refl _)

lemma map_points_sum_const (l : List Entry) (c : ℚ) (h : ∀ e ∈ l, e.points = c) :
    (l.map Entry.points).sum = l.length * c := by
  induction l with
  | nil => simp
  | cons x rest ih =>
    simp only [List.map_cons, List.sum_cons, List.length_cons]
    rw [h x (by simp), ih (fun e he => h e (by simp [he]))]
    push_cast
    ring

/-- C1: in a non-direct-points pass, every member of the tie group of size `k`
starting at position `p` receives position `p`, `tiedPlayers = k`, and points
`(Σ_{i<k} pointsForPosition(p+i, tier)) / k`, so the group's total points
equal the combined points of positions `p..p+k-1`.  Every tie group of a full
run is the leading group of the recursive call that processes it, with `p` its
starting position, so this settles all groups. -/
theorem tieGroup_splits_combined_points (format : Format) (tier : Tier)
    (p : Nat) (leader : Entry) (rest : List Entry) (k : Nat)
    (hk : k = countLeading
        (fun x => jsStrictEq (some x.score) (some leader.score)) rest + 1)
    (hnd : ¬(format = Format.Points ∧ leader.directPoints = true)) :
    (∀ e ∈ (assignPositionsWithTies format tier p (leader :: rest)).take k,
        e.position = p ∧ e.tied_players = k ∧
        e.points = totalTiePoints tier p k / (k : ℚ)) ∧
    (((assignPositionsWithTies format tier p (leader :: rest)).take k).map
        Entry.points).sum = totalTiePoints tier p k := by
  subst hk
  set c := countLeading
    (fun x => jsStrictEq (some x.score) (some leader.score)) rest with hc
  have hcle : c ≤ rest.length := countLeading_le _ _
  have hlen : (leader :: rest.take c).length = c + 1 := by
    simp [List.length_take, Nat.min_eq_left hcle]
  have hout : assignPositionsWithTies format tier p (leader :: rest) =
      ((leader :: rest.take c).map (fun g =>
          { g with position := p,
                   points := totalTiePoints tier p (c + 1) / ((c + 1 : Nat) : ℚ),
                   tied_players := c + 1 })) ++
        assignPositionsWithTies format tier (p + (c + 1)) (rest.drop c) := by
    rw [assignPositionsWithTies, tieScan_cons]
    simp only [← hc, if_neg hnd]
    rfl
  have htake : (assignPositionsWithTies format tier p (leader :: rest)).take (c + 1) =
      (leader :: rest.take c).map (fun g =>
        { g with position := p,
                 points := totalTiePoints tier p (c + 1) / ((c + 1 : Nat) : ℚ),
                 tied_players := c + 1 }) := by
    rw [hout]
    exact List.take_left' (by rw [List.length_map, hlen])
  constructor
  · intro e he
    rw [htake] at he
    obtain ⟨g, _, rfl⟩ := List.mem_map.mp he
    exact ⟨rfl, rfl, rfl⟩
  · rw [htake]
    rw [map_points_sum_const _ (totalTiePoints tier p (c + 1) / ((c + 1 : Nat) : ℚ))
      (by intro e he; obtain ⟨g, _, rfl⟩ := List.mem_map.mp he; rfl)]
    rw [List.length_map, hlen]
    have hne : (((c + 1 : Nat)) : ℚ) ≠ 0 := by positivity
    rw [mul_comm, div_mul_cancel₀ _ hne]

/-- C1 witness: two players tied at position 1 in a Tour Event each get
position 1, `tiedPlayers = 2`, and `(500 + 300) / 2 = 400` points. -/
theorem tieGroup_splits_combined_points_witness :
    (∀ e ∈ (assignPositionsWithTies .StrokePlay .TourEvent 1
        [⟨70, 0, 0, 1, false⟩, ⟨70, 0, 0, 1, false⟩]).take 2,
      e.position = 1 ∧ e.tied_players = 2 ∧
      e.points = totalTiePoints .TourEvent 1 2 / (2 : ℚ)) ∧
    totalTiePoints .TourEvent 1 2 / (2 : ℚ) = 400 := by
  constructor
  · exact (tieGroup_splits_combined_points .StrokePlay .TourEvent 1
      ⟨70, 0, 0, 1, false⟩ [⟨70, 0, 0, 1, false⟩] 2 (by decide) (by decide)).1
  · simp [totalTiePoints, calculatePoints, pointsSystem, pointsSystemTourEvent,
      List.lookup, List.range_succ]
    norm_num

/-- The last 1-based position present in each tier's points table. -/
def tableEnd : Tier → Nat
  | .Major => 64
  | .TourEvent => 65
  | .League => 20
  | .SUPR => 20

lemma lookup_eq_none_of_keys_le (l : List (Nat × ℚ)) (bound pos : Nat)
    (hb : l.all (fun kv => kv.1 ≤ bound) = true) (hpos : bound < pos) :
    l.lookup pos = none := by
  induction l with
  | nil => rfl
  | cons kv rest ih =>
    simp only [List.all_cons, Bool.and_eq_true, decide_eq_true_eq] at hb
    have hne : (pos == kv.1) = false := by
      simp only [beq_eq_false_iff_ne, ne_eq]
      omega
    simp [List.lookup, hne, ih hb.2]

/-- C2 counterexample: position 21 is beyond the SUPR table, yet
`calculatePoints` returns `0` there, not the claimed extrapolation
`max(30 - 21, 5) = 9`. -/
theorem calculatePoints_beyond_table_not_extrapolated :
    calculatePoints 21 Tier.SUPR = 0 ∧ max (30 - (21 : ℚ)) 5 = 9 ∧
    calculatePoints 21 Tier.SUPR ≠ max (30 - (21 : ℚ)) 5 := by
  refine ⟨by decide, by norm_num, ?_⟩
  have h1 : calculatePoints 21 Tier.SUPR = 0 := by decide
  rw [h1]
  norm_num

/-- C2 amended: for every position beyond the end of the tier's table,
`calculatePoints` returns `0` for every tier — League by its explicit branch,
and the other tiers because the `max(30 - position, 5)` fallback is guarded by
`position <= 20` while their tables already cover positions 1..20. -/
theorem calculatePoints_beyond_table_zero (tier : Tier) (pos : Nat)
    (h : tableEnd tier < pos) : calculatePoints pos tier = 0 := by
  have hnone : (pointsSystem tier).lookup pos = none := by
    apply lookup_eq_none_of_keys_le _ (tableEnd tier) _ _ h
    cases tier <;> decide
  rw [calculatePoints, hnone]
  cases tier with
  | League => rfl
  | Major =>
    have : ¬(pos ≤ 20) := by simp [tableEnd] at h; omega
    simp [calculatePointsFallback, this]
  | TourEvent =>
    have : ¬(pos ≤ 20) := by simp [tableEnd] at h; omega
    simp [calculatePointsFallback, this]
  | SUPR =>
    have : ¬(pos ≤ 20) := by simp [tableEnd] at h; omega
    simp [calculatePointsFallback, this]

/-- C2 witness: position 100 is beyond the Major table and scores `0`. -/
theorem calculatePoints_beyond_table_zero_witness :
    tableEnd Tier.Major < 100 ∧ calculatePoints 100 Tier.Major = 0 :=
  ⟨by decide, calculatePoints_beyond_table_zero Tier.Major 100 (by decide)⟩

lemma tieScan_map_points_cond (P : Entry → Prop) (pred : Entry → Entry → Bool)
    (emit : Nat → Nat → Entry → List Entry → List Entry)
    (hemit : ∀ p k leader group, P leader →
      (emit p k leader group).map Entry.points = group.map Entry.points) :
    ∀ (n p : Nat) (l : List Entry), l.length ≤ n → (∀ e ∈ l, P e) →
      (tieScan pred emit p l).map Entry.points = l.map Entry.points := by
  intro n
  induction n with
  | zero =>
    intro p l hl _
    have : l = [] := List.length_eq_zero.mp (Nat.le_zero.mp hl)
    subst this
    rfl
  | succ n ih =>
    intro p l hl hP
    cases l with
    | nil => rfl
    | cons leader rest =>
      set c := countLeading (pred leader) rest with hc
      have hcle : c ≤ rest.length := countLeading_le _ _
      rw [tieScan_cons, List.map_append, ← hc]
      rw [hemit _ _ _ _ (hP leader (by simp))]
      rw [ih _ _ (by simp only [List.length_drop, List.length_cons] at hl ⊢; omega)
        (fun e he => hP e (by simp [List.mem_of_mem_drop he]))]
      rw [← List.map_append]
      congr 1
      simp [List.take_append_drop]

lemma assignPositionsWithTies_points_direct_preserved (tier : Tier)
    (p : Nat) (l : List Entry) (hdir : ∀ e ∈ l, e.directPoints = true) :
    (assignPositionsWithTies .Points tier p l).map Entry.points =
      l.map Entry.points := by
  apply tieScan_map_points_cond (fun e => e.directPoints = true) _ _ _ l.length _ _
    (le_refl _) hdir
  intro q k leader group hP
  show ((if Format.Points = Format.Points ∧ leader.directPoints = true then _ else _) :
    List Entry).map Entry.points = _
  rw [if_pos ⟨rfl, hP⟩]
  simp [List.map_map]

lemma assignPositionsOnly_points_preserved (p : Nat) (l : List Entry) :
    (assignPositionsOnly p l).map Entry.points = l.map Entry.points := by
  apply tieScan_map_points_cond (fun _ => True) _ _ _ l.length _ _
    (le_refl _) (fun _ _ => trivial)
  intro q k leader group _
  simp [List.map_map]

lemma tieScanF_length (pred : α → α → Bool) (emit : Nat → Nat → α → List α → List α)
    (hemit : ∀ p k leader group, (emit p k leader group).length = group.length) :
    ∀ (fuel p : Nat) (l : List α), l.length ≤ fuel →
      (tieScanF pred emit fuel p l).length = l.length := by
  intro fuel
  induction fuel with
  | zero =>
    intro p l hl
    have : l = [] := List.length_eq_zero.mp (Nat.le_zero.mp hl)
    subst this
    rfl
  | succ n ih =>
    intro p l hl
    cases l with
    | nil => rfl
    | cons leader rest =>
      have hcle := countLeading_le (pred leader) rest
      simp only [tieScanF, List.length_append, hemit]
      rw [ih _ _ (by simp only [List.length_drop, List.length_cons] at hl ⊢; omega)]
      simp [List.length_take, List.length_drop, Nat.min_eq_left hcle]
      omega

lemma tieScan_length (pred : α → α → Bool) (emit : Nat → Nat → α → List α → List α)
    (hemit : ∀ p k leader group, (emit p k leader group).length = group.length)
    (p : Nat) (l : List α) : (tieScan pred emit p l).length = l.length :=
  tieScanF_length pred emit hemit l.length p l (le_refl _)

/-- C3: in a Points-format tournament whose entries all carry directly
supplied points, both position assigners (the upload pass in either sort
order, and the recalculation `assignPositionsOnly`) assign positions and
tie-group sizes to every entry but leave every entry's points field exactly
equal to its supplied value. -/
theorem pointsFormat_direct_points_preserved (tier : Tier) (p : Nat)
    (l : List Entry) (hdir : ∀ e ∈ l, e.directPoints = true) :
    (assignPositionsWithTies .Points tier p l).map Entry.points =
      l.map Entry.points ∧
    (assignPositionsOnly p l).map Entry.points = l.map Entry.points ∧
    (assignPositionsWithTies .Points tier p l).length = l.length ∧
    (assignPositionsOnly p l).length = l.length := by
  refine ⟨assignPositionsWithTies_points_direct_preserved tier p l hdir,
    assignPositionsOnly_points_preserved p l, ?_, ?_⟩
  · apply tieScan_length
    intro q k leader group
    split
    · simp
    · simp
  · apply tieScan_length
    intro q k leader group
    simp

/-- C3 witness: a direct-points entry with `grossPoints = 93.75` still shows
`93.75` after either assignment pass. -/
theorem pointsFormat_direct_points_preserved_witness :
    (assignPositionsWithTies .Points .League 1
        [⟨93.75, 0, 93.75, 1, true⟩]).map Entry.points = [(93.75 : ℚ)] ∧
    (assignPositionsOnly 1 [⟨93.75, 0, 93.75, 1, true⟩]).map Entry.points
        = [(93.75 : ℚ)] := by
  have h := pointsFormat_direct_points_preserved .League 1
    [⟨93.75, 0, 93.75, 1, true⟩]
    (by intro e he; simp only [List.mem_singleton] at he; subst he; rfl)
  refine ⟨?_, ?_⟩
  · rw [h.1]
    simp
  · rw [h.2.1]
    simp

lemma tieScan_head_take (pred : α → α → Bool) (emit : Nat → Nat → α → List α → List α)
    (hlen : ∀ p k leader group, (emit p k leader group).length = group.length)
    (p : Nat) (leader : α) (rest : List α) :
    (tieScan pred emit p (leader :: rest)).take (countLeading (pred leader) rest + 1) =
      emit p (countLeading (pred leader) rest + 1) leader
        (leader :: rest.take (countLeading (pred leader) rest)) := by
  rw [tieScan_cons]
  apply List.take_left'
  rw [hlen]
  simp [List.length_take, Nat.min_eq_left (countLeading_le (pred leader) rest)]

lemma tieScan_take_tied (pred : Entry → Entry → Bool)
    (emit : Nat → Nat → Entry → List Entry → List Entry)
    (hlen : ∀ p k leader group, (emit p k leader group).length = group.length)
    (htied : ∀ p k leader group, ∀ e ∈ emit p k leader group, e.tied_players = k)
    (p : Nat) (leader : Entry) (rest : List Entry) :
    ∀ e ∈ (tieScan pred emit p (leader :: rest)).take
        (countLeading (pred leader) rest + 1),
      e.tied_players = countLeading (pred leader) rest + 1 := by
  intro e he
  rw [tieScan_head_take pred emit hlen p leader rest] at he
  exact htied _ _ _ _ e he

lemma tieScan_headD_tied (pred : Entry → Entry → Bool)
    (emit : Nat → Nat → Entry → List Entry → List Entry)
    (hlen : ∀ p k leader group, (emit p k leader group).length = group.length)
    (htied : ∀ p k leader group, ∀ e ∈ emit p k leader group, e.tied_players = k)
    (p : Nat) (leader : Entry) (rest : List Entry) (d : Entry) :
    ((tieScan pred emit p (leader :: rest)).headD d).tied_players =
      countLeading (pred leader) rest + 1 := by
  set c := countLeading (pred leader) rest with hc
  have hlen1 : (emit p (c + 1) leader (leader :: rest.take c)).length = c + 1 := by
    rw [hlen]
    simp [List.length_take, Nat.min_eq_left (countLeading_le (pred leader) rest)]
  rw [tieScan_cons, ← hc]
  cases hE : emit p (c + 1) leader (leader :: rest.take c) with
  | nil => rw [hE] at hlen1; simp at hlen1
  | cons e es =>
    have : e.tied_players = c + 1 := htied _ _ _ _ e (by rw [hE]; simp)
    simp [this]

/-- C6 amended: tie grouping joins an entry to the current group when it
matches the group's leader under the pass's own predicate — exact strict
equality (`=== currentScore`) in the upload pass, and the floating-point
tolerance `|score - currentScore| < 0.001` only in the two recalculation
passes.  The leading group's size (recorded in every member's
`tied_players`, and in the first output entry) is one plus the number of
consecutive followers matching the leader. -/
theorem tie_grouping_tolerances (format : Format) (tier : Tier) (p : Nat)
    (leader : Entry) (rest : List Entry) (d : Entry) :
    (∀ e ∈ (assignPositionsWithTies format tier p (leader :: rest)).take
        (countLeading (fun x =>
          jsStrictEq (some x.score) (some leader.score)) rest + 1),
      e.tied_players = countLeading (fun x =>
        jsStrictEq (some x.score) (some leader.score)) rest + 1) ∧
    (∀ e ∈ (recalcAssignPositionsWithTies tier p (leader :: rest)).take
        (countLeading (fun x =>
          decide (|x.score - leader.score| < (1/1000 : ℚ))) rest + 1),
      e.tied_players = countLeading (fun x =>
        decide (|x.score - leader.score| < (1/1000 : ℚ))) rest + 1) ∧
    (∀ e ∈ (assignPositionsOnly p (leader :: rest)).take
        (countLeading (fun x =>
          decide (|x.points - leader.points| < (1/1000 : ℚ))) rest + 1),
      e.tied_players = countLeading (fun x =>
        decide (|x.points - leader.points| < (1/1000 : ℚ))) rest + 1) ∧
    ((assignPositionsWithTies format tier p (leader :: rest)).headD d).tied_players =
      countLeading (fun x =>
        jsStrictEq (some x.score) (some leader.score)) rest + 1 ∧
    ((recalcAssignPositionsWithTies tier p (leader :: rest)).headD d).tied_players =
      countLeading (fun x =>
        decide (|x.score - leader.score| < (1/1000 : ℚ))) rest + 1 ∧
    ((assignPositionsOnly p (leader :: rest)).headD d).tied_players =
      countLeading (fun x =>
        decide (|x.points - leader.points| < (1/1000 : ℚ))) rest + 1 := by
  have hlenU : ∀ (q k : Nat) (ldr : Entry) (group : List Entry),
      ((if format = Format.Points ∧ ldr.directPoints then
          group.map (fun g => { g with position := q, tied_players := k })
        else
          group.map (fun g =>
            { g with position := q, points := totalTiePoints tier q k / (k : ℚ),
                     tied_players := k })) : List Entry).length = group.length := by
    intro q k ldr group
    split
    · simp
    · simp
  have htiedU : ∀ (q k : Nat) (ldr : Entry) (group : List Entry),
      ∀ e ∈ ((if format = Format.Points ∧ ldr.directPoints then
          group.map (fun g => { g with position := q, tied_players := k })
        else
          group.map (fun g =>
            { g with position := q, points := totalTiePoints tier q k / (k : ℚ),
                     tied_players := k })) : List Entry), e.tied_players = k := by
    intro q k ldr group e he
    revert he
    split
    all_goals intro he
    all_goals rcases List.mem_map.mp he with ⟨g, _, rfl⟩
    all_goals rfl
  have hlenR : ∀ (q k : Nat) (ldr : Entry) (group : List Entry),
      (group.map (fun g =>
        { g with position := q, points := totalTiePoints tier q k / (k : ℚ),
                 tied_players := k })).length = group.length := by
    intro q k ldr group
    simp
  have htiedR : ∀ (q k : Nat) (ldr : Entry) (group : List Entry),
      ∀ e ∈ group.map (fun g =>
        { g with position := q, points := totalTiePoints tier q k / (k : ℚ),
                 tied_players := k }), e.tied_players = k := by
    intro q k ldr group e he
    rcases List.mem_map.mp he with ⟨g, _, rfl⟩
    rfl
  have hlenO : ∀ (q k : Nat) (ldr : Entry) (group : List Entry),
      (group.map (fun g =>
        { g with position := q, tied_players := k })).length = group.length := by
    intro q k ldr group
    simp
  have htiedO : ∀ (q k : Nat) (ldr : Entry) (group : List Entry),
      ∀ e ∈ group.map (fun g => { g with position := q, tied_players := k }),
        e.tied_players = k := by
    intro q k ldr group e he
    rcases List.mem_map.mp he with ⟨g, _, rfl⟩
    rfl
  refine ⟨?_, ?_, ?_, ?_, ?_, ?_⟩
  · exact tieScan_take_tied
      (fun leader x => jsStrictEq (some x.score) (some leader.score)) _
      hlenU htiedU p leader rest
  · exact tieScan_take_tied
      (fun leader x => decide (|x.score - leader.score| < (1/1000 : ℚ))) _
      hlenR htiedR p leader rest
  · exact tieScan_take_tied
      (fun leader x => decide (|x.points - leader.points| < (1/1000 : ℚ))) _
      hlenO htiedO p leader rest
  · exact tieScan_headD_tied
      (fun leader x => jsStrictEq (some x.score) (some leader.score)) _
      hlenU htiedU p leader rest d
  · exact tieScan_headD_tied
      (fun leader x => decide (|x.score - leader.score| < (1/1000 : ℚ))) _
      hlenR htiedR p leader rest d
  · exact tieScan_headD_tied
      (fun leader x => decide (|x.points - leader.points| < (1/1000 : ℚ))) _
      hlenO htiedO p leader rest d

/-- C6 counterexample: two entries whose scores differ by `0.0005` — a nonzero
amount below the `0.001` tolerance — do NOT land in the same tie group in the
upload assignment pass, which compares with strict equality: they get distinct
positions 1 and 2 and `tied_players = 1` each. -/
theorem upload_tie_grouping_exact_equality_cex :
    |(0 : ℚ) - 1/2000| < 1/1000 ∧ ((0 : ℚ) ≠ 1/2000) ∧
    (assignPositionsWithTies .StrokePlay .TourEvent 1
        [⟨0, 0, 0, 1, false⟩, ⟨1/2000, 0, 0, 1, false⟩]).map
      (fun e => (e.position, e.tied_players)) = [(1, 1), (2, 1)] := by
  have hq : ((1/2000 : ℚ) == 0) = false := by
    rw [beq_eq_false_iff_ne]
    norm_num
  refine ⟨?_, by norm_num, ?_⟩
  · rw [zero_sub, abs_neg, abs_of_pos (by norm_num)]
    norm_num
  · simp [assignPositionsWithTies, tieScan, tieScanF, countLeading, jsStrictEq, hq]

/-- C6 witness: with scores `0` and `0.0005`, the upload pass records a
leading group of size 1 while the recalculation pass records size 2. -/
theorem tie_grouping_tolerances_witness :
    ((assignPositionsWithTies .StrokePlay .TourEvent 1
        [⟨0, 0, 0, 1, false⟩, ⟨1/2000, 0, 0, 1, false⟩]).headD
      ⟨0, 0, 0, 1, false⟩).tied_players = 1 ∧
    ((recalcAssignPositionsWithTies .TourEvent 1
        [⟨0, 0, 0, 1, false⟩, ⟨1/2000, 0, 0, 1, false⟩]).headD
      ⟨0, 0, 0, 1, false⟩).tied_players = 2 := by
  have h := tie_grouping_tolerances .StrokePlay .TourEvent 1
    ⟨0, 0, 0, 1, false⟩ [⟨1/2000, 0, 0, 1, false⟩] ⟨0, 0, 0, 1, false⟩
  have hq : ((1/2000 : ℚ) == 0) = false := by
    rw [beq_eq_false_iff_ne]
    norm_num
  have habs : |((2000 : ℚ))⁻¹| < (1000 : ℚ)⁻¹ := by
    rw [abs_of_pos (by norm_num)]
    norm_num
  constructor
  · have h4 := h.2.2.2.1
    simpa [countLeading, jsStrictEq, hq] using h4
  · have h5 := h.2.2.2.2.1
    simpa [countLeading, habs] using h5

/-- Stable insertion step of the comparator-based sort (`Array.prototype.sort`
model): `le f e` means `f` may stay ahead of `e`. -/
def insertLe (le : α → α → Bool) (e : α) : List α → List α
  | [] => [e]
  | f :: r => if le f e then f :: insertLe le e r else e :: f :: r

/-- Comparator-based sort used for `.sort((a, b) => ...)` call sites. -/
def sortLe (le : α → α → Bool) : List α → List α
  | [] => []
  | x :: r => insertLe le x (sortLe le r)

lemma length_insertLe (le : α → α → Bool) (e : α) :
    ∀ l : List α, (insertLe le e l).length = l.length + 1 := by
  intro l
  induction l with
  | nil => rfl
  | cons f r ih =>
    simp only [insertLe]
    split
    · simp [ih]
    · simp

lemma perm_insertLe (le : α → α → Bool) (e : α) :
    ∀ l : List α, (insertLe le e l).Perm (e :: l) := by
  intro l
  induction l with
  | nil => exact List.Perm.refl _
  | cons f r ih =>
    simp only [insertLe]
    split
    · exact ((ih.cons f).trans (List.Perm.swap e f r)).symm.symm
    · exact List.Perm.refl _

lemma perm_sortLe (le : α → α → Bool) :
    ∀ l : List α, (sortLe le l).Perm l := by
  intro l
  induction l with
  | nil => exact List.Perm.refl _
  | cons x r ih =>
    exact (perm_insertLe le x (sortLe le r)).trans (ih.cons x)

lemma length_sortLe (le : α → α → Bool) (l : List α) :
    (sortLe le l).length = l.length :=
  (perm_sortLe le l).length_eq

lemma mem_insertLe (le : α → α → Bool) (e : α) (l : List α) (x : α) :
    x ∈ insertLe le e l ↔ x = e ∨ x ∈ l := by
  constructor
  · intro hx
    have := (perm_insertLe le e l).mem_iff.mp hx
    simpa using this
  · intro hx
    apply (perm_insertLe le e l).mem_iff.mpr
    simpa using hx

/-- One tournament result row as the Season Aggregator sees it: the points
column selected for the leaderboard type, both score columns, and the
position column. -/
structure EventRow where
  points : ℚ
  gross_score : ℚ
  net_score : ℚ
  position : Nat
deriving DecidableEq

/-- Leaderboard type (`'gross' | 'net'`). -/
inductive LeaderboardType where
  | gross
  | net
deriving DecidableEq

/-- The score column matching the leaderboard type
(`type === 'gross' ? 'gross_score' : 'net_score'`). -/
def selScore : LeaderboardType → EventRow → ℚ
  | .gross, e => e.gross_score
  | .net, e => e.net_score

/-- `.sort((a, b) => (b.points || 0) - (a.points || 0))`: descending by the
selected points column. -/
def sortByPointsDesc (l : List EventRow) : List EventRow :=
  sortLe (fun a b => decide (b.points ≤ a.points)) l

/-- `Math.round`: round half toward positive infinity. -/
def jsRound (q : ℚ) : ℤ := ⌊q + 1/2⌋

/-- Season stats (`PlayerStats` fields computed by
`leaderboardService.getOverallLeaderboard` for one player). -/
structure PlayerAgg where
  total_points : ℚ
  counting_events : Nat
  total_events : Nat
  avg_gross : ℚ
  avg_net : ℚ
deriving DecidableEq

/-- The per-player aggregation of `getOverallLeaderboard`: sort the player's
events descending by the selected points column, take the first 8, sum their
points, and — when any events count — set both `avg_gross` and `avg_net` to
the one rounded mean of the selected score column over that top-8 subset. -/
def computeStats (type : LeaderboardType) (all_events : List EventRow) : PlayerAgg :=
  let top8Events := (sortByPointsDesc all_events).take 8
  let avgScore : ℚ :=
    ((jsRound (((top8Events.map (selScore type)).sum) / (top8Events.length : ℚ))) : ℤ)
  { total_points := (top8Events.map EventRow.points).sum,
    counting_events := top8Events.length,
    total_events := all_events.length,
    avg_gross := if 0 < top8Events.length then avgScore else 0,
    avg_net := if 0 < top8Events.length then avgScore else 0 }

lemma sorted_insertLe_points (e : EventRow) :
    ∀ l : List EventRow,
      List.Pairwise (fun a b => b.points ≤ a.points) l →
      List.Pairwise (fun a b => b.points ≤ a.points)
        (insertLe (fun a b => decide (b.points ≤ a.points)) e l) := by
  intro l
  induction l with
  | nil =>
    intro _
    simp [insertLe]
  | cons f r ih =>
    intro hp
    rcases List.pairwise_cons.mp hp with ⟨hf, hr⟩
    simp only [insertLe]
    split
    · rename_i hfe
      have hef : e.points ≤ f.points := of_decide_eq_true hfe
      refine List.pairwise_cons.mpr ⟨?_, ih hr⟩
      intro x hx
      rcases (mem_insertLe _ e r x).mp hx with rfl | hx
      · exact hef
      · exact hf x hx
    · rename_i hfe
      have hef : f.points < e.points := by
        simpa [not_le] using hfe
      refine List.pairwise_cons.mpr ⟨?_, hp⟩
      intro x hx
      rcases List.mem_cons.mp hx with rfl | hx
      · exact hef.le
      · exact le_trans (hf x hx) hef.le

lemma sorted_sortByPointsDesc (l : List EventRow) :
    List.Pairwise (fun a b => b.points ≤ a.points) (sortByPointsDesc l) := by
  induction l with
  | nil => exact List.Pairwise.nil
  | cons x r ih => exact sorted_insertLe_points x _ ih

lemma insertLe_append_last (le : α → α → Bool) (e x : α) (hxe : le x e = false) :
    ∀ s : List α, insertLe le e (s ++ [x]) = insertLe le e s ++ [x] := by
  intro s
  induction s with
  | nil =>
    simp [insertLe, hxe]
  | cons f r ih =>
    simp only [List.cons_append, insertLe]
    split
    · simp [ih]
    · simp

lemma sortLe_append_last (le : α → α → Bool) (x : α) :
    ∀ l : List α, (∀ e ∈ l, le x e = false) →
      sortLe le (l ++ [x]) = sortLe le l ++ [x] := by
  intro l
  induction l with
  | nil =>
    intro _
    rfl
  | cons e t ih =>
    intro h
    simp only [List.cons_append, sortLe]
    rw [show t.append [x] = t ++ [x] from rfl, ih (fun f hf => h f (by simp [hf]))]
    exact insertLe_append_last le e x (h e (by simp)) (sortLe le t)

/-- C5: the Season Aggregator's `totalPoints` is the sum of the points of the
first 8 entries of the player's events sorted descending by the selected
points column (a sorted permutation, so exactly the 8 highest), with
`countingEvents = min(8, number of results)`; and for a player with at least
8 results, adding one more result whose points are lower than all existing
ones leaves `totalPoints` unchanged. -/
theorem leaderboard_top8_selection (type : LeaderboardType) (l : List EventRow)
    (x : EventRow) :
    (computeStats type l).counting_events = min 8 l.length ∧
    (computeStats type l).total_points =
      (((sortByPointsDesc l).take 8).map EventRow.points).sum ∧
    List.Pairwise (fun a b => b.points ≤ a.points) (sortByPointsDesc l) ∧
    (sortByPointsDesc l).Perm l ∧
    (8 ≤ l.length → (∀ e ∈ l, x.points < e.points) →
      (computeStats type (l ++ [x])).total_points =
        (computeStats type l).total_points) := by
  refine ⟨?_, rfl, sorted_sortByPointsDesc l, perm_sortLe _ l, ?_⟩
  · show ((sortByPointsDesc l).take 8).length = min 8 l.length
    rw [List.length_take, sortByPointsDesc, length_sortLe]
  · intro h8 hlow
    show (((sortByPointsDesc (l ++ [x])).take 8).map EventRow.points).sum =
      (((sortByPointsDesc l).take 8).map EventRow.points).sum
    have hsort : sortByPointsDesc (l ++ [x]) = sortByPointsDesc l ++ [x] := by
      apply sortLe_append_last
      intro e he
      simp only [decide_eq_false_iff_not, not_le]
      exact hlow e he
    rw [hsort, List.take_append_of_le_length
      (by rw [sortByPointsDesc, length_sortLe]; exact h8)]

/-- C5 witness: a player with 8 results of 1 point each; a 9th result with 0
points leaves `totalPoints` unchanged, and `countingEvents` is 8. -/
theorem leaderboard_top8_selection_witness :
    (computeStats .net (List.replicate 8 ⟨1, 72, 72, 1⟩ ++ [⟨0, 70, 70, 9⟩])).total_points =
      (computeStats .net (List.replicate 8 ⟨1, 72, 72, 1⟩)).total_points ∧
    (computeStats .net (List.replicate 8 ⟨1, 72, 72, 1⟩)).counting_events = 8 := by
  have h := leaderboard_top8_selection .net (List.replicate 8 ⟨1, 72, 72, 1⟩)
    ⟨0, 70, 70, 9⟩
  refine ⟨h.2.2.2.2 (by simp) ?_, by simpa using h.1⟩
  intro e he
  rw [List.eq_of_mem_replicate he]
  norm_num

/-- C8 counterexample: on a net leaderboard, a player with one event
(`gross_score = 100`, `net_score = 80`) gets `avg_gross = 80` — the rounded
mean of the NET scores over the top-8 subset — while the mean of the gross
score field over that subset is `100`. -/
theorem avg_fields_not_selected_cex :
    (computeStats .net [⟨10, 100, 80, 1⟩]).avg_gross = 80 ∧
    (([⟨10, 100, 80, 1⟩] : List EventRow).map EventRow.gross_score).sum /
      ((([⟨10, 100, 80, 1⟩] : List EventRow).length : Nat) : ℚ) = 100 ∧
    (80 : ℚ) ≠ 100 := by
  refine ⟨?_, by norm_num, by norm_num⟩
  simp [computeStats, sortByPointsDesc, sortLe, insertLe, selScore, jsRound]
  norm_num [Int.floor_eq_iff]

/-- C8 amended: for every player with at least one event, the leaderboard
sets `avg_gross` and `avg_net` to the same single value: the half-up-rounded
mean of the score field matching the SELECTED leaderboard type over the top-8
subset (so `avg_gross` reflects gross scores only when the gross leaderboard
is selected). -/
theorem avg_fields_single_rounded_mean (type : LeaderboardType)
    (l : List EventRow) (h : l ≠ []) :
    (computeStats type l).avg_gross = (computeStats type l).avg_net ∧
    (computeStats type l).avg_gross =
      ((jsRound ((((sortByPointsDesc l).take 8).map (selScore type)).sum /
        ((min 8 l.length : Nat) : ℚ))) : ℤ) := by
  have hlen8 : ((sortByPointsDesc l).take 8).length = min 8 l.length := by
    rw [List.length_take, sortByPointsDesc, length_sortLe]
  have h0 : 0 < min 8 l.length := by
    have : 0 < l.length := List.length_pos.mpr h
    omega
  constructor
  · rfl
  · simp only [computeStats, hlen8, if_pos h0]

/-- C8 witness: for the single-event player, both averages are the same value
`80` (the rounded net mean), applying the amended theorem at that input. -/
theorem avg_fields_single_rounded_mean_witness :
    ([⟨10, 100, 80, 1⟩] : List EventRow) ≠ [] ∧
    (computeStats .net [⟨10, 100, 80, 1⟩]).avg_gross =
      (computeStats .net [⟨10, 100, 80, 1⟩]).avg_net ∧
    (computeStats .net [⟨10, 100, 80, 1⟩]).avg_net = 80 := by
  have h := avg_fields_single_rounded_mean .net [⟨10, 100, 80, 1⟩] (by simp)
  refine ⟨by simp, h.1, ?_⟩
  rw [← h.1, h.2]
  simp [sortByPointsDesc, sortLe, insertLe, selScore, jsRound]
  norm_num [Int.floor_eq_iff]

/-- A processed entry produced by the Score Interpreter (the Stroke-Play
branch of `processTournamentUpload`). -/
structure ProcessedEntry where
  net : ℚ
  gross : ℚ
  handicap : ℚ
deriving DecidableEq

/-- `isNaN(score) ? 72 : score` — the NaN substitution applied to a computed
net or gross score. -/
def nanSubScore (x : JsNum) : ℚ :=
  match x with
  | none => 72
  | some q => q

/-- `isNaN(courseHandicap) ? 0 : courseHandicap`. -/
def nanSubHandicap (x : JsNum) : ℚ :=
  match x with
  | none => 0
  | some q => q

/-- The Stroke-Play branch of `processTournamentUpload`: inputs are the
parsed values (`parseInt`/`parseFloat` results, possibly `NaN`) of the score
and handicap cells, and the raw `tournamentData.par`.
`courseHandicap = parseFloat(...) || 0`, `scoreRelativeToPar = parseInt(...) || 0`,
`par = tournamentData.par || 72`, `netScore = par + scoreRelativeToPar`,
`grossScore = netScore + courseHandicap`, with the NaN substitutions applied
to the stored fields. -/
def strokePlayProcess (parField scoreParsed handicapParsed : JsNum) :
    ProcessedEntry :=
  let courseHandicap : JsNum := some (jsTruthyOr handicapParsed 0)
  let scoreRelativeToPar : JsNum := some (jsTruthyOr scoreParsed 0)
  let par : JsNum := some (jsTruthyOr parField 72)
  let netScore : JsNum := jsAdd par scoreRelativeToPar
  let grossScore : JsNum := jsAdd netScore courseHandicap
  { net := nanSubScore netScore,
    gross := nanSubScore grossScore,
    handicap := nanSubHandicap courseHandicap }

/-- C7: for a Stroke Play entry with a genuine (nonzero) par, the interpreter
computes `netScore = par + rawScore` (rawScore being the parsed
strokes-relative-to-par) and `grossScore = netScore + handicap`; equivalently
`netScore - par = rawScore` and `grossScore - netScore = handicap`.  No entry
here is NaN-substituted: all computed scores are real. -/
theorem strokePlay_score_roundtrip (p : ℚ) (hp : p ≠ 0)
    (scoreParsed handicapParsed : JsNum) :
    (strokePlayProcess (some p) scoreParsed handicapParsed).net =
      p + jsTruthyOr scoreParsed 0 ∧
    (strokePlayProcess (some p) scoreParsed handicapParsed).net - p =
      jsTruthyOr scoreParsed 0 ∧
    (strokePlayProcess (some p) scoreParsed handicapParsed).gross =
      (strokePlayProcess (some p) scoreParsed handicapParsed).net +
        (strokePlayProcess (some p) scoreParsed handicapParsed).handicap ∧
    (strokePlayProcess (some p) scoreParsed handicapParsed).gross -
        (strokePlayProcess (some p) scoreParsed handicapParsed).net =
      (strokePlayProcess (some p) scoreParsed handicapParsed).handicap := by
  simp [strokePlayProcess, jsTruthyOr, jsAdd, nanSubScore, nanSubHandicap, hp]
  try ring

/-- C7 witness: par 72, raw score +2, handicap 5 gives net 74 and
gross = net + handicap. -/
theorem strokePlay_score_roundtrip_witness :
    (strokePlayProcess (some 72) (some 2) (some 5)).net = 74 ∧
    (strokePlayProcess (some 72) (some 2) (some 5)).gross -
        (strokePlayProcess (some 72) (some 2) (some 5)).net =
      (strokePlayProcess (some 72) (some 2) (some 5)).handicap := by
  have h := strokePlay_score_roundtrip 72 (by norm_num) (some 2) (some 5)
  refine ⟨?_, h.2.2.2⟩
  rw [h.1]
  norm_num [jsTruthyOr]

/-- C9 counterexample: the NaN substitution stores the constant `72`, not the
tournament par — for a tournament with `par = 70`, a NaN computed score would
be replaced by `72 ≠ 70`. -/
theorem nan_substitute_constant_cex :
    nanSubScore none = 72 ∧ nanSubHandicap none = 0 ∧ (72 : ℚ) ≠ 70 :=
  ⟨rfl, rfl, by norm_num⟩

/-- C9 amended: a NaN computed score is substituted by the fixed constant 72
(the default par, equal to the tournament par only when `par = 72`) and a NaN
handicap by 0; moreover in this code path the computed net score is never NaN
(the parsed inputs are defaulted by `|| 0` / `|| 72` first), so the
substitution never propagates NaN either way. -/
theorem nan_substitution_amended :
    (∀ x : JsNum, x = none → nanSubScore x = 72 ∧ nanSubHandicap x = 0) ∧
    (∀ parField scoreParsed : JsNum,
      jsAdd (some (jsTruthyOr parField 72)) (some (jsTruthyOr scoreParsed 0)) ≠
        none) ∧
    (∀ parField scoreParsed handicapParsed : JsNum,
      (strokePlayProcess parField scoreParsed handicapParsed).net =
        jsTruthyOr parField 72 + jsTruthyOr scoreParsed 0) := by
  refine ⟨?_, ?_, ?_⟩
  · intro x hx
    subst hx
    exact ⟨rfl, rfl⟩
  · intro parField scoreParsed
    simp [jsAdd]
  · intro parField scoreParsed handicapParsed
    simp [strokePlayProcess, jsAdd, nanSubScore]

/-- C9 amended witness: at NaN inputs the substitutions give 72 and 0, and
the computed net score is real. -/
theorem nan_substitution_amended_witness :
    nanSubScore none = 72 ∧ nanSubHandicap none = 0 ∧
    jsAdd (some (jsTruthyOr none 72)) (some (jsTruthyOr none 0)) ≠ none ∧
    (strokePlayProcess none none none).net =
      jsTruthyOr none 72 + jsTruthyOr none 0 := by
  refine ⟨(nan_substitution_amended.1 none rfl).1,
    (nan_substitution_amended.1 none rfl).2,
    nan_substitution_amended.2.1 none none,
    nan_substitution_amended.2.2 none none none⟩

/-- A player row of the Persistence Store (`players` table). -/
structure Player where
  id : Nat
  trackman_id : String
  display_name : String
  club : String
deriving DecidableEq

/-- `playerService.getByTrackmanId`: exact-match lookup. -/
def getByTrackmanId (players : List Player) (trackmanId : String) :
    Option Player :=
  players.find? (fun p => p.trackman_id == trackmanId)

/-- `playerService.create`: insert a row with a fresh id. -/
def createPlayer (players : List Player) (nextId : Nat)
    (trackmanId displayName club : String) : Player × List Player :=
  let p : Player := ⟨nextId, trackmanId, displayName, club⟩
  (p, players ++ [p])

/-- `playerService.getOrCreate(trackmanId, fallbackName?)`: look the player
up, create it (club `'Sylvan'`) only when absent AND a fallback name was
supplied, and return the result through the non-null assertion `player!` —
modelled as the possibly-`none` option it really is. -/
def getOrCreate (players : List Player) (nextId : Nat) (trackmanId : String)
    (fallbackName : Option String) : Option Player × List Player :=
  match getByTrackmanId players trackmanId, fallbackName with
  | none, some name =>
    let c := createPlayer players nextId trackmanId name ("Sylvan")
    (some c.1, c.2)
  | pl, _ => (pl, players)

/-- C10: when no player exists for the given trackmanId and no fallbackName
is supplied, `getOrCreate` returns null despite its non-nullable declared
return type (the `player!` assertion masks it). -/
theorem getOrCreate_returns_none (players : List Player) (nextId : Nat)
    (trackmanId : String)
    (h : getByTrackmanId players trackmanId = none) :
    (getOrCreate players nextId trackmanId none).1 = none := by
  simp [getOrCreate, h]

/-- C10 witness: the empty store with any id. -/
theorem getOrCreate_returns_none_witness :
    getByTrackmanId [] ("X") = none ∧
    (getOrCreate [] 0 ("X") none).1 = none :=
  ⟨rfl, getOrCreate_returns_none [] 0 ("X") rfl⟩

/-- One row of the `tournament_results` payload built by
`uploadTournamentWithResults` (with the temporary `directPoints` flag). -/
structure TournamentResult where
  player_id : Nat
  gross_position : Nat
  net_position : Nat
  gross_score : JsNum
  net_score : JsNum
  handicap : JsNum
  gross_points : JsNum
  net_points : JsNum
  tied_players : Nat
  directPoints : Bool
deriving DecidableEq

/-- One element of the `playersData` array passed to
`uploadTournamentWithResults`: the resolved trackman id and the raw
numeric-ish fields the loop reads. -/
structure UploadRow where
  trackmanId : String
  gross : JsField
  net : JsField
  handicap : JsField
  grossPoints : JsField
  netPoints : JsField
  directPointsFlag : Bool
deriving DecidableEq

/-- The Persistence Store visible to the upload: players, tournament rows
(by id), result rows (tagged by tournament id), and a fresh-id counter. -/
structure Store where
  players : List Player
  tournaments : List Nat
  results : List (Nat × TournamentResult)
  nextId : Nat
deriving DecidableEq

/-- The errors `uploadTournamentWithResults` can re-raise. -/
inductive UploadError where
  | invalidScore (trackmanId : String)
  | persistFailure
deriving DecidableEq

/-- Outcome of an upload: the created tournament id, or the re-raised error. -/
inductive UploadOutcome where
  | ok (tournamentId : Nat)
  | err (e : UploadError)
deriving DecidableEq

/-- The validation loop of `uploadTournamentWithResults`: for each row,
get-or-create the player (by trackman id, fallback name = the id itself,
club `'Sylvan'`), default the numeric fields with `?? 0`, detect direct
points, and — for non-Points formats — fail the whole upload on a NaN gross
score.  Player creation happens before validation, so players created for
earlier rows persist even when a later row fails. -/
def buildResults (format : Format) :
    List UploadRow → Store → Except UploadError (List TournamentResult) × Store
  | [], st => (.ok [], st)
  | row :: rest, st =>
    let found := getByTrackmanId st.players row.trackmanId
    let pid := match found with
      | some p => p.id
      | none => st.nextId
    let st1 := match found with
      | some _ => st
      | none =>
        { st with
          players := (createPlayer st.players st.nextId row.trackmanId
            row.trackmanId ("Sylvan")).2,
          nextId := st.nextId + 1 }
    let grossScore := row.gross.nullish 0
    let netScore := row.net.nullish 0
    let handicap := row.handicap.nullish 0
    let grossPoints := row.grossPoints.nullish 0
    let netPoints := row.netPoints.nullish 0
    let directPoints :=
      row.directPointsFlag || jsGtZero grossPoints || jsGtZero netPoints
    if format ≠ .Points ∧ grossScore = none then
      (.error (.invalidScore row.trackmanId), st1)
    else
      let r : TournamentResult :=
        { player_id := pid, gross_position := 999, net_position := 999,
          gross_score := grossScore, net_score := netScore,
          handicap := handicap,
          gross_points :=
            if format = .Points ∧ directPoints then grossPoints else some 0,
          net_points :=
            if format = .Points ∧ directPoints then netPoints else some 0,
          tied_players := 1, directPoints := directPoints }
      match buildResults format rest st1 with
      | (.ok rs, st2) => (.ok (r :: rs), st2)
      | (.error e, st2) => (.error e, st2)

/-- `a - b` comparator result viewed as "a may stay before b": `NaN` results
leave the order unchanged, so both directions hold. -/
def jsLeNum (x y : JsNum) : Bool :=
  match x, y with
  | some a, some b => decide (a ≤ b)
  | _, _ => true

/-- The gross-pass sort key: points for Points format, else the gross score. -/
def grossPassKey (format : Format) (r : TournamentResult) : JsNum :=
  if format = .Points then r.gross_points else r.gross_score

/-- The net-pass sort key. -/
def netPassKey (format : Format) (r : TournamentResult) : JsNum :=
  if format = .Points then r.net_points else r.net_score

/-- Sort order of a pass: ascending for Stroke Play, descending otherwise
(Points and Stableford sort higher-is-better). -/
def passSortLe (format : Format) (key : TournamentResult → JsNum)
    (a b : Nat × TournamentResult) : Bool :=
  if format = .StrokePlay then jsLeNum (key a.2) (key b.2)
  else jsLeNum (key b.2) (key a.2)

/-- One assignment pass of the upload helper over the index-tagged sorted
copy, with the pass's position/points setters. -/
def uploadAssignPass (format : Format) (tier : Tier)
    (key : TournamentResult → JsNum)
    (setPT : Nat → Nat → (Nat × TournamentResult) → (Nat × TournamentResult))
    (setPts : ℚ → (Nat × TournamentResult) → (Nat × TournamentResult))
    (sorted : List (Nat × TournamentResult)) : List (Nat × TournamentResult) :=
  tieScan (fun leader x => jsStrictEq (key x.2) (key leader.2))
    (fun p k leader group =>
      if format = .Points ∧ leader.2.directPoints then
        group.map (setPT p k)
      else
        group.map (fun g => setPts (totalTiePoints tier p k / (k : ℚ)) (setPT p k g)))
    1 sorted

/-- Write the assignments made on the sorted copy back to the shared records
(in-place mutation through the sorted array, modelled by index tags). -/
def writeBack (orig : List TournamentResult)
    (assigned : List (Nat × TournamentResult)) : List TournamentResult :=
  orig.enum.map (fun t =>
    match assigned.lookup t.1 with
    | some r => r
    | none => t.2)

def setGrossPosTied (p k : Nat) (t : Nat × TournamentResult) :
    Nat × TournamentResult :=
  (t.1, { t.2 with gross_position := p, tied_players := k })

def setGrossPoints (q : ℚ) (t : Nat × TournamentResult) :
    Nat × TournamentResult :=
  (t.1, { t.2 with gross_points := some q })

def setNetPosTied (p k : Nat) (t : Nat × TournamentResult) :
    Nat × TournamentResult :=
  (t.1, { t.2 with net_position := p, tied_players := k })

def setNetPoints (q : ℚ) (t : Nat × TournamentResult) :
    Nat × TournamentResult :=
  (t.1, { t.2 with net_points := some q })

/-- Sort by gross key and assign gross positions/points. -/
def assignGrossPass (format : Format) (tier : Tier)
    (results : List TournamentResult) : List TournamentResult :=
  writeBack results (uploadAssignPass format tier (grossPassKey format)
    setGrossPosTied setGrossPoints
    (sortLe (passSortLe format (grossPassKey format)) results.enum))

/-- Sort by net key and assign net positions/points. -/
def assignNetPass (format : Format) (tier : Tier)
    (results : List TournamentResult) : List TournamentResult :=
  writeBack results (uploadAssignPass format tier (netPassKey format)
    setNetPosTied setNetPoints
    (sortLe (passSortLe format (netPassKey format)) results.enum))

/-- `uploadTournamentWithResults` as a Persistence Store transaction:
validate-and-build (creating unknown players on the way), assign both
position passes in memory, then create the tournament row, then bulk-insert
the results; a bulk-insert failure (modelled by `bulkFails`) triggers the
compensating tournament delete and re-raises the error. -/
def uploadTournamentWithResults (bulkFails : Bool) (format : Format)
    (tier : Tier) (rows : List UploadRow) (st : Store) :
    UploadOutcome × Store :=
  match buildResults format rows st with
  | (.error e, st1) => (.err e, st1)
  | (.ok results, st1) =>
    let results1 := assignNetPass format tier (assignGrossPass format tier results)
    let tournamentId := st1.nextId
    let st2 := { st1 with tournaments := st1.tournaments ++ [tournamentId],
                          nextId := st1.nextId + 1 }
    if bulkFails then
      (.err .persistFailure,
       { st2 with tournaments := st2.tournaments.filter (fun t => t ≠ tournamentId) })
    else
      (.ok tournamentId,
       { st2 with results := st2.results ++ results1.map (fun r => (tournamentId, r)) })

lemma buildResults_frame (format : Format) :
    ∀ (rows : List UploadRow) (st : Store),
      (buildResults format rows st).2.tournaments = st.tournaments ∧
      (buildResults format rows st).2.results = st.results ∧
      st.nextId ≤ (buildResults format rows st).2.nextId := by
  intro rows
  induction rows with
  | nil =>
    intro st
    exact ⟨rfl, rfl, le_refl _⟩
  | cons row rest ih =>
    intro st
    by_cases hc : (format ≠ Format.Points ∧ row.gross.nullish 0 = none)
    · cases hfound : getByTrackmanId st.players row.trackmanId
      · simp only [buildResults, hfound, if_pos hc]
        refine ⟨by trivial, by trivial, by omega⟩
      · simp only [buildResults, hfound, if_pos hc]
        refine ⟨by trivial, by trivial, by omega⟩
    · cases hfound : getByTrackmanId st.players row.trackmanId
      · simp only [buildResults, hfound, if_neg hc]
        rcases hrec : buildResults format rest
          { st with
            players := (createPlayer st.players st.nextId row.trackmanId
              row.trackmanId ("Sylvan")).2,
            nextId := st.nextId + 1 } with ⟨ex, st2⟩
        have hih := ih { st with
            players := (createPlayer st.players st.nextId row.trackmanId
              row.trackmanId ("Sylvan")).2,
            nextId := st.nextId + 1 }
        rw [hrec] at hih
        cases ex
        · simp only [hrec]
          exact ⟨hih.1, hih.2.1, by have := hih.2.2; simp at this ⊢; omega⟩
        · simp only [hrec]
          exact ⟨hih.1, hih.2.1, by have := hih.2.2; simp at this ⊢; omega⟩
      · simp only [buildResults, hfound, if_neg hc]
        rcases hrec : buildResults format rest st with ⟨ex, st2⟩
        have hih := ih st
        rw [hrec] at hih
        cases ex
        · simp only [hrec]
          exact hih
        · simp only [hrec]
          exact hih

lemma buildResults_nan_error (format : Format) (hf : format ≠ Format.Points) :
    ∀ (rows : List UploadRow) (st : Store),
      (∃ r ∈ rows, r.gross = JsField.nan) →
      ∃ name, (buildResults format rows st).1 =
        .error (.invalidScore name) := by
  intro rows
  induction rows with
  | nil =>
    intro st h
    simp at h
  | cons row rest ih =>
    intro st h
    by_cases hrow : row.gross = JsField.nan
    · have hnone : row.gross.nullish 0 = none := by
        rw [hrow]
        rfl
      have hcond : (format ≠ Format.Points ∧ row.gross.nullish 0 = none) :=
        And.intro hf hnone
      cases hfound : getByTrackmanId st.players row.trackmanId
      · refine ⟨row.trackmanId, ?_⟩
        simp only [buildResults, hfound, if_pos hcond]
      · refine ⟨row.trackmanId, ?_⟩
        simp only [buildResults, hfound, if_pos hcond]
    · have hrest : ∃ r ∈ rest, r.gross = JsField.nan := by
        rcases h with ⟨r, hr, hnan⟩
        rcases List.mem_cons.mp hr with rfl | hr2
        · exact absurd hnan hrow
        · exact ⟨r, hr2, hnan⟩
      have hnotnone : ¬(row.gross.nullish 0 = none) := by
        cases hg : row.gross
        · simp [JsField.nullish]
        · exact absurd hg hrow
        · simp [JsField.nullish]
      have hcond : ¬(format ≠ Format.Points ∧ row.gross.nullish 0 = none) :=
        fun hx => hnotnone hx.2
      cases hfound : getByTrackmanId st.players row.trackmanId
      · rcases hrec : buildResults format rest
          { st with
            players := (createPlayer st.players st.nextId row.trackmanId
              row.trackmanId ("Sylvan")).2,
            nextId := st.nextId + 1 } with ⟨ex, st2⟩
        obtain ⟨name, hname⟩ := ih { st with
            players := (createPlayer st.players st.nextId row.trackmanId
              row.trackmanId ("Sylvan")).2,
            nextId := st.nextId + 1 } hrest
        rw [hrec] at hname
        cases ex with
        | ok rs => simp at hname
        | error e =>
          have he : e = .invalidScore name := by simpa using hname
          refine ⟨name, ?_⟩
          simp only [buildResults, hfound, if_neg hcond, hrec, he]
      · rcases hrec : buildResults format rest st with ⟨ex, st2⟩
        obtain ⟨name, hname⟩ := ih st hrest
        rw [hrec] at hname
        cases ex with
        | ok rs => simp at hname
        | error e =>
          have he : e = .invalidScore name := by simpa using hname
          refine ⟨name, ?_⟩
          simp only [buildResults, hfound, if_neg hcond, hrec, he]

/-- C4 amended: upload processing is atomic for tournaments and results but
not for players.  On ANY error outcome the tournaments table and results
table are exactly as before the upload (in particular, a bulk-write failure
after the tournament row was created triggers the compensating delete and
re-raises the error to the caller) — though player rows created during
validation persist.  A row whose gross score is NaN (a non-Points format)
makes the whole upload fail with InvalidScore before any tournament or
result is written; a missing gross score, by contrast, defaults to 0 and
does not raise. -/
theorem upload_error_atomicity (bulkFails : Bool) (format : Format)
    (tier : Tier) (rows : List UploadRow) (st : Store)
    (hfresh : ∀ t ∈ st.tournaments, t < st.nextId) :
    (∀ e, (uploadTournamentWithResults bulkFails format tier rows st).1 = .err e →
      (uploadTournamentWithResults bulkFails format tier rows st).2.tournaments =
        st.tournaments ∧
      (uploadTournamentWithResults bulkFails format tier rows st).2.results =
        st.results) ∧
    (format ≠ Format.Points → (∃ r ∈ rows, r.gross = JsField.nan) →
      ∃ name, (uploadTournamentWithResults bulkFails format tier rows st).1 =
        .err (.invalidScore name)) ∧
    (bulkFails = true →
      ∃ e, (uploadTournamentWithResults bulkFails format tier rows st).1 =
        .err e) := by
  rcases hb : buildResults format rows st with ⟨ex, st1⟩
  have hframe := buildResults_frame format rows st
  rw [hb] at hframe
  have hfr1 : st1.tournaments = st.tournaments := hframe.1
  have hfr2 : st1.results = st.results := hframe.2.1
  have hfr3 : st.nextId ≤ st1.nextId := hframe.2.2
  cases ex with
  | error e0 =>
    have hu : uploadTournamentWithResults bulkFails format tier rows st =
        (.err e0, st1) := by
      simp only [uploadTournamentWithResults, hb]
    refine ⟨?_, ?_, ?_⟩
    · intro e _
      rw [hu]
      exact ⟨hfr1, hfr2⟩
    · intro hf hnan
      obtain ⟨name, hname⟩ := buildResults_nan_error format hf rows st hnan
      rw [hb] at hname
      have he0 : e0 = .invalidScore name := by simpa using hname
      exact ⟨name, by rw [hu, he0]⟩
    · intro _
      exact ⟨e0, by rw [hu]⟩
  | ok results =>
    have hnan_absurd : ∀ (hf : format ≠ Format.Points),
        (∃ r ∈ rows, r.gross = JsField.nan) → False := by
      intro hf hnan
      obtain ⟨name, hname⟩ := buildResults_nan_error format hf rows st hnan
      rw [hb] at hname
      simp at hname
    cases bulkFails with
    | false =>
      have hu : (uploadTournamentWithResults false format tier rows st).1 =
          .ok st1.nextId := by
        simp only [uploadTournamentWithResults, hb]
        rfl
      refine ⟨?_, ?_, ?_⟩
      · intro e he
        rw [hu] at he
        exact absurd he (by simp)
      · intro hf hnan
        exact absurd hnan (by intro h; exact hnan_absurd hf h)
      · intro hbf
        exact absurd hbf (by simp)
    | true =>
      have hne : ∀ t ∈ st1.tournaments, t ≠ st1.nextId := by
        intro t ht
        rw [hfr1] at ht
        have h1 := hfresh t ht
        omega
      have hfilter : (st1.tournaments ++ [st1.nextId]).filter
          (fun t => t ≠ st1.nextId) = st1.tournaments := by
        rw [List.filter_append]
        have h1 : st1.tournaments.filter (fun t => t ≠ st1.nextId) =
            st1.tournaments := by
          apply List.filter_eq_self.mpr
          intro a ha
          simpa using hne a ha
        have h2 : ([st1.nextId] : List Nat).filter (fun t => t ≠ st1.nextId) =
            [] := by
          simp
        rw [h1, h2, List.append_nil]
      have hu : uploadTournamentWithResults true format tier rows st =
          (.err .persistFailure,
           { st1 with
             tournaments := (st1.tournaments ++ [st1.nextId]).filter
               (fun t => t ≠ st1.nextId),
             nextId := st1.nextId + 1 }) := by
        simp only [uploadTournamentWithResults, hb]
        rfl
      refine ⟨?_, ?_, ?_⟩
      · intro e _
        rw [hu]
        exact ⟨by rw [show ({ st1 with
            tournaments := (st1.tournaments ++ [st1.nextId]).filter
              (fun t => t ≠ st1.nextId),
            nextId := st1.nextId + 1 } : Store).tournaments =
              (st1.tournaments ++ [st1.nextId]).filter
                (fun t => t ≠ st1.nextId) from rfl, hfilter, hfr1],
          hfr2⟩
      · intro hf hnan
        exact absurd hnan (by intro h; exact hnan_absurd hf h)
      · intro _
        exact ⟨.persistFailure, by rw [hu]⟩

/-- C4 counterexample, refuting two parts of the claim on the code:
(a) an upload whose only row has a MISSING gross score succeeds (the
`?? 0` default turns it into 0, so no InvalidScore is raised), and
(b) an upload whose second row has a NaN gross score does raise
InvalidScore and creates no tournament, but the Persistence Store is NOT
untouched: the player rows created during validation (here 2 of them)
remain. -/
theorem upload_invalid_score_store_touched_cex :
    (uploadTournamentWithResults false .StrokePlay .TourEvent
      [⟨("A"), .missing, .missing, .missing, .missing, .missing, false⟩]
      ⟨[], [], [], 0⟩).1 = .ok 1 ∧
    (uploadTournamentWithResults false .StrokePlay .TourEvent
      [⟨("A"), .num 70, .num 70, .num 0, .missing, .missing, false⟩,
       ⟨("B"), .nan, .num 70, .num 0, .missing, .missing, false⟩]
      ⟨[], [], [], 0⟩).1 = .err (.invalidScore ("B")) ∧
    (uploadTournamentWithResults false .StrokePlay .TourEvent
      [⟨("A"), .num 70, .num 70, .num 0, .missing, .missing, false⟩,
       ⟨("B"), .nan, .num 70, .num 0, .missing, .missing, false⟩]
      ⟨[], [], [], 0⟩).2.players.length = 2 ∧
    (uploadTournamentWithResults false .StrokePlay .TourEvent
      [⟨("A"), .num 70, .num 70, .num 0, .missing, .missing, false⟩,
       ⟨("B"), .nan, .num 70, .num 0, .missing, .missing, false⟩]
      ⟨[], [], [], 0⟩).2.tournaments = [] := by
  have hAB : ((("A") : String) == ("B")) = false := by decide
  refine ⟨?_, ?_, ?_, ?_⟩
  all_goals
    simp [uploadTournamentWithResults, buildResults, getByTrackmanId,
      createPlayer, JsField.nullish, jsGtZero, List.find?, hAB]

/-- C4 witness: with a valid single-row upload and a failing bulk write, the
upload re-raises PersistenceFailure and the tournaments and results tables
are left exactly as before (the compensating delete removed the created
tournament row). -/
theorem upload_error_atomicity_witness :
    (uploadTournamentWithResults true .StrokePlay .TourEvent
      [⟨("A"), .num 70, .num 70, .num 0, .missing, .missing, false⟩]
      ⟨[], [], [], 0⟩).1 = .err .persistFailure ∧
    (uploadTournamentWithResults true .StrokePlay .TourEvent
      [⟨("A"), .num 70, .num 70, .num 0, .missing, .missing, false⟩]
      ⟨[], [], [], 0⟩).2.tournaments = [] ∧
    (uploadTournamentWithResults true .StrokePlay .TourEvent
      [⟨("A"), .num 70, .num 70, .num 0, .missing, .missing, false⟩]
      ⟨[], [], [], 0⟩).2.results = [] := by
  have h := upload_error_atomicity true .StrokePlay .TourEvent
    [⟨("A"), .num 70, .num 70, .num 0, .missing, .missing, false⟩]
    ⟨[], [], [], 0⟩ (by intro t ht; simp at ht)
  have he : (uploadTournamentWithResults true .StrokePlay .TourEvent
      [⟨("A"), .num 70, .num 70, .num 0, .missing, .missing, false⟩]
      ⟨[], [], [], 0⟩).1 = .err .persistFailure := by
    simp [uploadTournamentWithResults, buildResults, getByTrackmanId,
      createPlayer, JsField.nullish, jsGtZero, List.find?]
  exact ⟨he, (h.1 _ he).1, (h.1 _ he).2⟩
